import Mathlib

/-!
Shallow embedding of the page-oriented storage engine
(`src/page/page_item.rs`, `src/page/pager.rs`, `src/index/node.rs`,
`src/index/btree.rs`, `src/data_item/buffer.rs`).

Machine bytes are modelled as `Nat` values (callers keep them `< 256`, as the
Rust `u8` type does); a page or a whole file is a total function from byte
offset to byte.  `usize` arithmetic is modelled on `Nat` with explicit
big-endian encode/decode; fallible operations return `Except DbError`.
-/

set_option maxHeartbeats 1000000

/-- Error enumeration of `src/util/error.rs`. -/
inductive DbError where
  | keyNotFound
  | keyAlreadyExists
  | tableAlreadyExists
  | unexpectedError
  | tryFromSliceError
  | utf8Error
  | notInBufferError
  | tableNotFound
  | fileNotFound
  | pageNumOutOfSize
  deriving DecidableEq, Repr

/-- `PAGE_SIZE` from `src/page/page_item.rs`. -/
def PAGE_SIZE : Nat := 4096

/-- `PTR_SIZE` (`size_of::<usize>()` on a 64-bit target) from `src/page/page_item.rs`. -/
def PTR_SIZE : Nat := 8

/-- `INIT_FILE_PAGE_NUM` from `src/data_item/buffer.rs`. -/
def INIT_FILE_PAGE_NUM : Nat := 4

/-- `NON_DATA_PAGE` from `src/data_item/buffer.rs`. -/
def NON_DATA_PAGE : Nat := 4

/-- The bytes of one page (`Page.data` in `src/page/page_item.rs`), as a total
function from offset to byte value. -/
abbrev PageData := Nat → Nat

/-- The bytes of a whole disk file, as a total function from offset to byte. -/
abbrev FileData := Nat → Nat

/-- The all-zero page (fresh pages produced by `get_empty_data` in
`src/util/data_gen.rs` are zero-filled). -/
def zeroPage : PageData := fun _ => 0

/-- Store one byte at an offset. -/
def writeByte (p : PageData) (off b : Nat) : PageData :=
  fun j => if j = off then b else p j

/-- Store a list of bytes at consecutive offsets starting at `off`. -/
def writeBytesList (p : PageData) (off : Nat) : List Nat → PageData
  | [] => p
  | b :: rest => writeBytesList (writeByte p off b) (off + 1) rest

/-- Read `n` consecutive bytes starting at `off`. -/
def readBytes (p : PageData) (off n : Nat) : List Nat :=
  (List.range n).map (fun i => p (off + i))

/-- Big-endian bytes of a `usize` value (`usize::to_be_bytes`); the extraction
`v / 2 ^ (8 * k) % 256` agrees with Rust's two's-complement wrap at 64 bits. -/
def beBytes8 (v : Nat) : List Nat :=
  [v / 2 ^ 56 % 256, v / 2 ^ 48 % 256, v / 2 ^ 40 % 256, v / 2 ^ 32 % 256,
   v / 2 ^ 24 % 256, v / 2 ^ 16 % 256, v / 2 ^ 8 % 256, v % 256]

/-- Big-endian bytes of a `u32` value (`u32::to_be_bytes` via `byteorder`). -/
def beBytes4 (v : Nat) : List Nat :=
  [v / 2 ^ 24 % 256, v / 2 ^ 16 % 256, v / 2 ^ 8 % 256, v % 256]

/-- Big-endian decoding of a byte list (`from_be_bytes`). -/
def fromBE (bs : List Nat) : Nat :=
  bs.foldl (fun a b => a * 256 + b) 0

/-- `Page::get_value_from_offset` (`src/page/page_item.rs` 55-59): read an
8-byte big-endian `usize`.  The Rust version threads a `Result`, but its only
error source (`Value::try_from` on a slice longer than 8 bytes) cannot fire on
the fixed 8-byte slice, so the model is total. -/
def getValueFromOffset (p : PageData) (off : Nat) : Nat :=
  fromBE (readBytes p off PTR_SIZE)

/-- `Page::write_value_at_offset` (`src/page/page_item.rs` 43-51). -/
def writeValueAtOffset (p : PageData) (off v : Nat) : Except DbError PageData :=
  if off > PAGE_SIZE - PTR_SIZE then .error .unexpectedError
  else .ok (writeBytesList p off (beBytes8 v))

/-- `Page::write_bytes_at_offset` (`src/page/page_item.rs` 82-95): writes
`min(bytes.len(), size)` bytes.  The Rust slice assignment panics when
`offset + siz > PAGE_SIZE`; the model's total domain hides that, and every
theorem below stays within page bounds. -/
def writeBytesAtOffset (p : PageData) (bs : List Nat) (off siz : Nat) : PageData :=
  writeBytesList p off (bs.take siz)

/-- Read a 4-byte big-endian `u32` from a file (`byteorder::ReadBytesExt`). -/
def readU32 (f : FileData) (off : Nat) : Nat :=
  fromBE (readBytes f off 4)

/-- Write a 4-byte big-endian `u32` to a file (`byteorder::WriteBytesExt`). -/
def writeU32 (f : FileData) (off v : Nat) : FileData :=
  writeBytesList f off (beBytes4 v)

/-! ## B+ tree node layout (`src/index/node.rs`) -/

/-- `IS_ROOT_OFFSET` (`src/index/node.rs`). -/
def IS_ROOT_OFFSET : Nat := 0

/-- `NODE_TYPE_OFFSET` (`src/index/node.rs`). -/
def NODE_TYPE_OFFSET : Nat := 1

/-- `VALID_OFFSET` (`src/index/node.rs`). -/
def VALID_OFFSET : Nat := 2

/-- `PARENT_POINTER_OFFSET` (`src/index/node.rs`). -/
def PARENT_POINTER_OFFSET : Nat := 3

/-- `COMMON_NODE_HEADER_SIZE = 1 + 1 + 1 + 8` (`src/index/node.rs`). -/
def COMMON_NODE_HEADER_SIZE : Nat := 11

/-- `LEAF_NODE_NUM_PAIRS_OFFSET` (`src/index/node.rs`). -/
def LEAF_NODE_NUM_PAIRS_OFFSET : Nat := COMMON_NODE_HEADER_SIZE

/-- `LEAF_NODE_HEADER_SIZE` (`src/index/node.rs`). -/
def LEAF_NODE_HEADER_SIZE : Nat := COMMON_NODE_HEADER_SIZE + PTR_SIZE

/-- `INTERNAL_NODE_NUM_CHILDREN_OFFSET` (`src/index/node.rs`). -/
def INTERNAL_NODE_NUM_CHILDREN_OFFSET : Nat := COMMON_NODE_HEADER_SIZE

/-- `INTERNAL_NODE_HEADER_SIZE` (`src/index/node.rs`). -/
def INTERNAL_NODE_HEADER_SIZE : Nat := COMMON_NODE_HEADER_SIZE + PTR_SIZE

/-- `KEY_SIZE` (`src/index/node.rs`). -/
def KEY_SIZE : Nat := 10

/-- `VALUE_SIZE` (`src/index/node.rs`). -/
def VALUE_SIZE : Nat := 10

/-- `MAX_BRANCHING_FACTOR` (`src/index/btree.rs`). -/
def MAX_BRANCHING_FACTOR : Nat := 200

/-- `NODE_KEYS_LIMIT = MAX_BRANCHING_FACTOR - 1` (`src/index/btree.rs`). -/
def NODE_KEYS_LIMIT : Nat := MAX_BRANCHING_FACTOR - 1

/-- `NodeType` (`src/index/node.rs`). -/
inductive NodeTy where
  | internal
  | leaf
  | unknown
  deriving DecidableEq, Repr

/-- `NodeType::from(u8)` (`src/index/node.rs` 64-72). -/
def nodeTypeFromByte (b : Nat) : NodeTy :=
  if b = 1 then .internal else if b = 2 then .leaf else .unknown

/-- `u8::from_byte` (`src/index/node.rs` 84-91): only `0x01` is `true`. -/
def boolFromByte (b : Nat) : Bool := b = 1

/-- Is `b` a UTF-8 continuation byte (`0x80..=0xBF`)? -/
def isCont (b : Nat) : Bool := decide (0x80 ≤ b ∧ b ≤ 0xBF)

/-- UTF-8 validity of a byte sequence, as checked by Rust's `str::from_utf8`
(RFC 3629: no overlong forms, no surrogates, at most 4 bytes per scalar). -/
def utf8Valid : List Nat → Bool
  | [] => true
  | b :: rest =>
    if b ≤ 0x7F then utf8Valid rest
    else if 0xC2 ≤ b ∧ b ≤ 0xDF then
      match rest with
      | c1 :: r => isCont c1 && utf8Valid r
      | [] => false
    else if b = 0xE0 then
      match rest with
      | c1 :: c2 :: r => decide (0xA0 ≤ c1 ∧ c1 ≤ 0xBF) && isCont c2 && utf8Valid r
      | _ => false
    else if (0xE1 ≤ b ∧ b ≤ 0xEC) ∨ b = 0xEE ∨ b = 0xEF then
      match rest with
      | c1 :: c2 :: r => isCont c1 && isCont c2 && utf8Valid r
      | _ => false
    else if b = 0xED then
      match rest with
      | c1 :: c2 :: r => decide (0x80 ≤ c1 ∧ c1 ≤ 0x9F) && isCont c2 && utf8Valid r
      | _ => false
    else if b = 0xF0 then
      match rest with
      | c1 :: c2 :: c3 :: r => decide (0x90 ≤ c1 ∧ c1 ≤ 0xBF) && isCont c2 && isCont c3 && utf8Valid r
      | _ => false
    else if 0xF1 ≤ b ∧ b ≤ 0xF3 then
      match rest with
      | c1 :: c2 :: c3 :: r => isCont c1 && isCont c2 && isCont c3 && utf8Valid r
      | _ => false
    else if b = 0xF4 then
      match rest with
      | c1 :: c2 :: c3 :: r => decide (0x80 ≤ c1 ∧ c1 ≤ 0x8F) && isCont c2 && isCont c3 && utf8Valid r
      | _ => false
    else false

/-- `trim_matches(char::from(0))`: drop leading and trailing NUL bytes. -/
def trimZeros (bs : List Nat) : List Nat :=
  ((bs.dropWhile (· = 0)).reverse.dropWhile (· = 0)).reverse

/-- Lexicographic strict order on byte sequences; Rust's `Ord` on `String`
compares the underlying UTF-8 bytes exactly this way. -/
def bytesLt : List Nat → List Nat → Bool
  | [], [] => false
  | [], _ :: _ => true
  | _ :: _, [] => false
  | a :: as, b :: bs => if a < b then true else if b < a then false else bytesLt as bs

/-- `a <= b` on Rust `String`s, over the byte model. -/
def bytesLe (a b : List Nat) : Bool := ! bytesLt b a

/-- `KeyValuePair` (`src/index/key_value_pair.rs`, with the value stored as
bytes: `src/index/node.rs` reads and writes the value as a 10-byte string). -/
structure KVPair where
  key : List Nat
  value : List Nat
  deriving DecidableEq, Repr

/-- `Node` (`src/index/node.rs` 103-110).  `pageNum` is the `page_num` field of
the embedded `Page`; the file name is a single fixed file and is omitted. -/
structure DbNode where
  nodeType : NodeTy
  parentOffset : Nat
  isRoot : Bool
  valid : Bool
  offset : Nat
  page : PageData
  pageNum : Nat

/-- Key-reading loop shared by the two branches of `Node::get_keys`
(`src/index/node.rs` 197-238): read `count` keys of `KEY_SIZE` bytes spaced
`stride` apart, UTF-8-check each, and trim NULs. -/
def readKeysAux (p : PageData) (stride : Nat) : Nat → Nat → Except DbError (List (List Nat))
  | _, 0 => .ok []
  | off, m + 1 =>
    let raw := readBytes p off KEY_SIZE
    if utf8Valid raw then do
      let rest ← readKeysAux p stride (off + stride) m
      .ok (trimZeros raw :: rest)
    else .error .utf8Error

/-- `Node::get_keys` (`src/index/node.rs` 197-238).  Internal: `num_children - 1`
keys starting right after the child array; leaf: `num_pairs` keys with the
10-byte values skipped. -/
def getKeys (n : DbNode) : Except DbError (List (List Nat)) :=
  match n.nodeType with
  | .internal =>
    let numChildren := getValueFromOffset n.page INTERNAL_NODE_NUM_CHILDREN_OFFSET
    readKeysAux n.page KEY_SIZE (INTERNAL_NODE_HEADER_SIZE + numChildren * PTR_SIZE)
      (numChildren - 1)
  | .leaf =>
    let numPairs := getValueFromOffset n.page LEAF_NODE_NUM_PAIRS_OFFSET
    readKeysAux n.page (KEY_SIZE + VALUE_SIZE) LEAF_NODE_HEADER_SIZE numPairs
  | .unknown => .error .unexpectedError

/-- Pair-reading loop of `Node::get_key_value_pairs` (`src/index/node.rs`
146-169). -/
def readPairsAux (p : PageData) : Nat → Nat → Except DbError (List KVPair)
  | _, 0 => .ok []
  | off, m + 1 =>
    let keyRaw := readBytes p off KEY_SIZE
    if utf8Valid keyRaw then
      let valueRaw := readBytes p (off + KEY_SIZE) VALUE_SIZE
      if utf8Valid valueRaw then do
        let rest ← readPairsAux p (off + KEY_SIZE + VALUE_SIZE) m
        .ok (⟨trimZeros keyRaw, trimZeros valueRaw⟩ :: rest)
      else .error .utf8Error
    else .error .utf8Error

/-- `Node::get_key_value_pairs` (`src/index/node.rs` 134-173).  Rejects the
node with `UnexpectedError` unless the page's valid byte (offset 2) is `0x01`. -/
def getKeyValuePairs (n : DbNode) : Except DbError (List KVPair) :=
  match n.nodeType with
  | .leaf =>
    if boolFromByte (n.page VALID_OFFSET) = true then
      readPairsAux n.page LEAF_NODE_HEADER_SIZE
        (getValueFromOffset n.page LEAF_NODE_NUM_PAIRS_OFFSET)
    else .error .unexpectedError
  | _ => .error .unexpectedError

/-- Child-reading loop of `Node::get_children` (`src/index/node.rs` 183-189). -/
def readChildrenAux (p : PageData) : Nat → Nat → List Nat
  | _, 0 => []
  | off, m + 1 => getValueFromOffset p off :: readChildrenAux p (off + PTR_SIZE) m

/-- `Node::get_children` (`src/index/node.rs` 177-194). -/
def getChildren (n : DbNode) : Except DbError (List Nat) :=
  match n.nodeType with
  | .internal =>
    .ok (readChildrenAux n.page INTERNAL_NODE_HEADER_SIZE
      (getValueFromOffset n.page INTERNAL_NODE_NUM_CHILDREN_OFFSET))
  | _ => .error .unexpectedError

/-- `Node::add_key_value_pair` (`src/index/node.rs` 242-263): read `num_pairs`,
bump it, and write the key and value at the tail slot.  There is no capacity
check against any pair limit. -/
def addKeyValuePair (n : DbNode) (kv : KVPair) : Except DbError DbNode :=
  match n.nodeType with
  | .leaf =>
    let numPairs := getValueFromOffset n.page LEAF_NODE_NUM_PAIRS_OFFSET
    let off := LEAF_NODE_HEADER_SIZE + (KEY_SIZE + VALUE_SIZE) * numPairs
    do
      let p1 ← writeValueAtOffset n.page LEAF_NODE_NUM_PAIRS_OFFSET (numPairs + 1)
      let p2 := writeBytesAtOffset p1 kv.key off KEY_SIZE
      let p3 := writeBytesAtOffset p2 kv.value (off + KEY_SIZE) VALUE_SIZE
      .ok { n with page := p3 }
  | _ => .error .unexpectedError

/-- `Node::get_keys_len` (`src/index/node.rs` 330-342). -/
def getKeysLen (n : DbNode) : Except DbError Nat :=
  match n.nodeType with
  | .internal =>
    .ok (getValueFromOffset n.page INTERNAL_NODE_NUM_CHILDREN_OFFSET - 1)
  | .leaf => .ok (getValueFromOffset n.page LEAF_NODE_NUM_PAIRS_OFFSET)
  | .unknown => .error .unexpectedError

/-- Scan loop of `Node::update_internal_key` (`src/index/node.rs` 370-382):
the stored key is compared to `old_key` without trimming, and on a match the
trimmed `new_key` is overwritten in place. -/
def updateInternalKeyAux (p : PageData) (oldKey newKey : List Nat) :
    Nat → Nat → Except DbError PageData
  | _, 0 => .error .keyNotFound
  | off, m + 1 =>
    let raw := readBytes p off KEY_SIZE
    if utf8Valid raw then
      if raw = oldKey then .ok (writeBytesAtOffset p (trimZeros newKey) off KEY_SIZE)
      else updateInternalKeyAux p oldKey newKey (off + KEY_SIZE) m
    else .error .utf8Error

/-- `Node::update_internal_key` (`src/index/node.rs` 360-387). -/
def updateInternalKey (n : DbNode) (oldKey newKey : List Nat) : Except DbError DbNode :=
  match n.nodeType with
  | .internal =>
    let nc := getValueFromOffset n.page INTERNAL_NODE_NUM_CHILDREN_OFFSET
    (updateInternalKeyAux n.page oldKey newKey
      (INTERNAL_NODE_HEADER_SIZE + nc * PTR_SIZE) (nc - 1)).map
      (fun p => { n with page := p })
  | _ => .error .unexpectedError

/-- `Node::try_from(NodeSpec)` (`src/index/node.rs` 642-663).  The produced
`Page` is `Page::new_phantom`, whose `page_num` is 0. -/
def nodeTryFrom (pageData : PageData) (offset : Nat) : Except DbError DbNode :=
  let nodeType := nodeTypeFromByte (pageData NODE_TYPE_OFFSET)
  if nodeType = .unknown then .error .unexpectedError
  else
    .ok { nodeType := nodeType
          parentOffset := getValueFromOffset pageData PARENT_POINTER_OFFSET
          isRoot := boolFromByte (pageData IS_ROOT_OFFSET)
          valid := boolFromByte (pageData VALID_OFFSET)
          offset := offset
          page := pageData
          pageNum := 0 }

/-! ## BTree operations (`src/index/btree.rs`) -/

/-- Leaf-branch scan of `search_node` (`src/index/btree.rs` 292-300): first
index whose key equals the search key. -/
def findEqIdxAux (k : List Nat) : List (List Nat) → Nat → Option Nat
  | [], _ => none
  | x :: rest, i => if x = k then some i else findEqIdxAux k rest (i + 1)

/-- First index with key equal to `k`, starting the count at 0. -/
def findEqIdx (keys : List (List Nat)) (k : List Nat) : Option Nat :=
  findEqIdxAux k keys 0

/-- Internal-branch scan of `search_node` (`src/index/btree.rs` 311-317):
first index `i` with `search_key <= keys[i]`. -/
def firstGeAux (k : List Nat) : List (List Nat) → Nat → Option Nat
  | [], _ => none
  | x :: rest, i => if bytesLe k x then some i else firstGeAux k rest (i + 1)

/-- First index whose key is `≥ k`, starting the count at 0. -/
def firstGeIdx (keys : List (List Nat)) (k : List Nat) : Option Nat :=
  firstGeAux k keys 0

/-- `BTree::search_node` (`src/index/btree.rs` 271-340), the non-insert
variant.  `store` maps a page number to its bytes, standing for
`pager.get_page` on the tree's single file; the Rust receiver is `&self`, so
no node page is ever modified by this function.  Recursion is bounded by
`fuel` (the Rust code recurses unboundedly on the page graph); exhausted fuel
is reported as `unexpectedError` and every theorem supplies enough fuel. -/
def searchNode (store : Nat → PageData) :
    Nat → DbNode → List Nat → Except DbError (DbNode × Option KVPair)
  | 0, _, _ => .error .unexpectedError
  | fuel + 1, n, searchKey =>
    match n.nodeType with
    | .leaf => do
      let keys ← getKeys n
      match findEqIdx keys searchKey with
      | some i => do
        let kvPairs ← getKeyValuePairs n
        match kvPairs[i]? with
        | none => .ok (n, none)
        | some kv => .ok (n, some kv)
      | none => .ok (n, none)
    | .internal => do
      let keys ← getKeys n
      match firstGeIdx keys searchKey with
      | some i => do
        let children ← getChildren n
        match children[i]? with
        | none => .error .unexpectedError
        | some childOffset => do
          let child ← nodeTryFrom (store (childOffset / PAGE_SIZE)) childOffset
          searchNode store fuel child searchKey
      | none => .error .keyNotFound
    | .unknown => .error .unexpectedError

/-- Result of `search_node_inserted`: the node the recursion ended on, the
pair found (if any), the possibly key-widened node the call started from
(`top`), and whether the final node is the very node the call was given
(`isTop` — in Rust, whether the returned `Arc` is the argument `Arc`). -/
structure SNIRes where
  final : DbNode
  found : Option KVPair
  top : DbNode
  isTop : Bool

/-- `BTree::search_node_inserted` (`src/index/btree.rs` 348-450): like
`search_node`, but when an internal node has no key `≥ search_key` it widens
the last key in place (`update_internal_key`) and descends into the last
child.  Mutations to transient child nodes are dropped by the caller; only a
mutation of the node the top-level call started from (the root `Arc`)
survives, which `top` records. -/
def searchNodeInserted (store : Nat → PageData) :
    Nat → DbNode → List Nat → Except DbError SNIRes
  | 0, _, _ => .error .unexpectedError
  | fuel + 1, n, searchKey =>
    match n.nodeType with
    | .leaf => do
      let keys ← getKeys n
      match findEqIdx keys searchKey with
      | some i => do
        let kvPairs ← getKeyValuePairs n
        match kvPairs[i]? with
        | none => .ok ⟨n, none, n, true⟩
        | some kv => .ok ⟨n, some kv, n, true⟩
      | none => .ok ⟨n, none, n, true⟩
    | .internal => do
      let keys ← getKeys n
      match firstGeIdx keys searchKey with
      | some i => do
        let children ← getChildren n
        match children[i]? with
        | none => .error .unexpectedError
        | some childOffset => do
          let child ← nodeTryFrom (store (childOffset / PAGE_SIZE)) childOffset
          let r ← searchNodeInserted store fuel child searchKey
          .ok ⟨r.final, r.found, n, false⟩
      | none =>
        match keys.getLast? with
        | some lastKey => do
          let n2 ← updateInternalKey n lastKey searchKey
          let children ← getChildren n2
          match children.getLast? with
          | none => .error .unexpectedError
          | some childOffset => do
            let child ← nodeTryFrom (store (childOffset / PAGE_SIZE)) childOffset
            let r ← searchNodeInserted store fuel child searchKey
            .ok ⟨r.final, r.found, n2, false⟩
        | none => .error .unexpectedError
    | .unknown => .error .unexpectedError

/-- The `BTree` bookkeeping (`src/index/btree.rs` 17-22): the in-memory root
node, the first-leaf offset, and the page store reached through the
pager/buffer pair for the tree's file. -/
structure BTreeState where
  root : DbNode
  firstOffset : Nat
  store : Nat → PageData

/-- `BTree::search` (`src/index/btree.rs` 61-67). -/
def btreeSearch (t : BTreeState) (key : List Nat) (fuel : Nat) : Except DbError KVPair := do
  let r ← searchNode t.store fuel t.root key
  match r.2 with
  | some kv => .ok kv
  | none => .error .keyNotFound

/-- `BTree::new` (`src/index/btree.rs` 36-58) on a fresh file: `get_new_page`
hands out data page 1, zero-filled on a fresh file; the root is an in-memory
leaf `Node` over that page.  `Node::new` never writes the node header back to
the page (its body is a bare struct literal under a `todo` comment), so the
page bytes stay all zero — in particular the byte at `VALID_OFFSET` is 0.
The call site passes five arguments to the six-parameter `Node::new` (the
`valid` argument is missing in the head revision); the in-memory `valid`
field is never read on the search/insert paths, which consult the page byte
instead, so the model picks `false`. -/
def btreeNew : BTreeState :=
  { root := { nodeType := .leaf, parentOffset := 0, isRoot := true, valid := false,
              offset := 1, page := zeroPage, pageNum := 1 },
    firstOffset := 1,
    store := fun _ => zeroPage }

/-- `BTree::insert` (`src/index/btree.rs` 214-234).  `pager.write_page`
replaces the buffered copy of the page keyed by its `page_num`, modelled as a
point update of the store.  The `split_node` branch (taken only when the
target node already holds `NODE_KEYS_LIMIT = 199` keys) is never reached by
any theorem below and is represented by `unexpectedError`. -/
def btreeInsert (t : BTreeState) (kv : KVPair) (fuel : Nat) : Except DbError BTreeState := do
  let r ← searchNodeInserted t.store fuel t.root kv.key
  if r.found.isSome then .error .keyAlreadyExists
  else do
    let keysLen ← getKeysLen r.final
    if keysLen < NODE_KEYS_LIMIT then do
      let n2 ← addKeyValuePair r.final kv
      .ok { t with
            root := if r.isTop then n2 else r.top,
            store := fun pn => if pn = n2.pageNum then n2.page else t.store pn }
    else .error .unexpectedError

/-! ## Pager (`src/page/pager.rs`) -/

/-- `Pager` (`src/page/pager.rs` 6-11) together with the page store reached
through the `Buffer` handle every operation receives: `cnt`, `max_size`, and
the `remain_size` list of `(remaining, write_offset)` pairs.  The `dyn Buffer`
argument is modelled by its contract on the pager's single file (spec P1:
`get_page` returns the bytes most recently submitted by `write_page` for that
page number). -/
structure PagerState where
  cnt : Nat
  maxSize : Nat
  remain : List (Nat × Nat)
  store : Nat → PageData

/-- `Pager::fill_up_to` (`src/page/pager.rs` 41-44): records the new size and
delegates to `Buffer::fill_up_to`, which fails with `PageNumOutOfSize` when
the on-page free-bytes table would overflow (`src/data_item/buffer.rs`
204-205) and otherwise only zero-extends the file beyond the pages already
handed out, leaving the store unchanged. -/
def pagerFillUpTo (st : PagerState) (numOfPage : Nat) : Except DbError PagerState :=
  if PAGE_SIZE < (INIT_FILE_PAGE_NUM + numOfPage + 1) * 32 then .error .pageNumOutOfSize
  else .ok { st with maxSize := numOfPage }

/-- `Pager::get_new_page` (`src/page/pager.rs` 56-64): double the file when
`cnt` has reached `max_size`, bump `cnt`, append a fresh `(PAGE_SIZE, 0)`
capacity entry, and hand back page `cnt`. -/
def pagerGetNewPage (st : PagerState) : Except DbError (PageData × Nat × PagerState) := do
  let st1 ← if st.maxSize ≤ st.cnt then pagerFillUpTo st (2 * st.maxSize) else .ok st
  let st2 := { st1 with cnt := st1.cnt + 1, remain := st1.remain ++ [(PAGE_SIZE, 0)] }
  .ok (st2.store st2.cnt, st2.cnt, st2)

/-- First-fit scan of `Pager::insert_value` (`src/page/pager.rs` 68-81):
walk `remain_size` with its index, skip index 0, and return the first
`(i, siz, offset)` with `siz > len`. -/
def findFitAux (len : Nat) : List (Nat × Nat) → Nat → Option (Nat × Nat × Nat)
  | [], _ => none
  | (siz, off) :: rest, i =>
    if i = 0 then findFitAux len rest (i + 1)
    else if len < siz then some (i, siz, off) else findFitAux len rest (i + 1)

/-- `Pager::insert_value` (`src/page/pager.rs` 66-89): write into the first
page with strictly more remaining space, or allocate a new page; return the
global offset `offset_in_page + (page# - 1) * PAGE_SIZE`. -/
def pagerInsertValue (st : PagerState) (bytes : List Nat) : Except DbError (Nat × PagerState) :=
  let len := bytes.length
  match findFitAux len st.remain 0 with
  | some (i, siz, off) =>
    let page2 := writeBytesAtOffset (st.store i) bytes off len
    .ok (off + (i - 1) * PAGE_SIZE,
      { st with
        store := fun pn => if pn = i then page2 else st.store pn,
        remain := st.remain.set i (siz - len, off + len) })
  | none => do
    let (pgData, pgNum, st1) ← pagerGetNewPage st
    let page2 := writeBytesAtOffset pgData bytes 0 len
    .ok ((st1.cnt - 1) * PAGE_SIZE,
      { st1 with
        store := fun pn => if pn = pgNum then page2 else st1.store pn,
        remain := st1.remain.set st1.cnt (PAGE_SIZE - len, len) })

/-- `Pager::get_value` (`src/page/pager.rs` 91-97): decompose the global
offset as `page# = offset / PAGE_SIZE + 1`, `page_offset = offset % PAGE_SIZE`
and slice the page. -/
def pagerGetValue (st : PagerState) (offset size : Nat) : Except DbError (List Nat) :=
  .ok (readBytes (st.store (offset / PAGE_SIZE + 1)) (offset % PAGE_SIZE) size)

/-! ## Buffer file-level operations (`src/data_item/buffer.rs`) -/

/-- Zero-fill `len` bytes of a file from `start` (`get_empty_data` followed by
`write_all`). -/
def fileWriteZeros (f : FileData) (start len : Nat) : FileData :=
  fun j => if start ≤ j ∧ j < start + len then 0 else f j

/-- Write `count` big-endian `u32` entries of value `v` at consecutive 4-byte
slots starting at `off` (the per-page entry loop at the end of `fill_up_to`;
sequential `write_u32` calls advance the file cursor by 4 each). -/
def writeU32Entries (v : Nat) : FileData → Nat → Nat → FileData
  | f, _, 0 => f
  | f, off, m + 1 => writeU32Entries v (writeU32 f off v) (off + 4) m

/-- `fill_up_to` of both buffer implementations (`src/data_item/buffer.rs`
194-231 for `LRUBuffer`, 559-592 for `ClockBuffer`; the two bodies are
identical).  `page_num` is the stored page-count header at offset 0.  The
growth count `num_of_page - page_num + INIT_FILE_PAGE_NUM` evaluates
`num_of_page - page_num` first and underflows `usize` (a Rust panic) when
`num_of_page < page_num`; the model uses truncated `Nat` subtraction, and
every theorem below hypothesises `page_num ≤ num_of_page`. -/
def bufFillUpTo (f : FileData) (numOfPage : Nat) : Except DbError FileData :=
  let pageNum := readU32 f 0
  if PAGE_SIZE < (INIT_FILE_PAGE_NUM + numOfPage + 1) * 32 then
    .error .pageNumOutOfSize
  else
    let grow := numOfPage - pageNum + INIT_FILE_PAGE_NUM
    let f1 := fileWriteZeros f (pageNum * PAGE_SIZE) (grow * PAGE_SIZE)
    let f2 := writeU32 f1 0 (INIT_FILE_PAGE_NUM + numOfPage)
    let f3 := writeU32 f2 4 (PAGE_SIZE - (INIT_FILE_PAGE_NUM + numOfPage + 1) * 32)
    .ok (writeU32Entries PAGE_SIZE f3 ((1 + pageNum) * 32) grow)

/-- `LRUBuffer::fill_up_to` (`src/data_item/buffer.rs` 194-231). -/
def lruFillUpTo (f : FileData) (numOfPage : Nat) : Except DbError FileData :=
  bufFillUpTo f numOfPage

/-- `ClockBuffer::fill_up_to` (`src/data_item/buffer.rs` 559-592). -/
def clockFillUpTo (f : FileData) (numOfPage : Nat) : Except DbError FileData :=
  bufFillUpTo f numOfPage

/-- Scan loop of `insert_bytes` (`src/data_item/buffer.rs` 408-425 / 756-773):
walk free-table entries `i, i+1, ...` (`m` of them, read at file offset
`32·INIT_FILE_PAGE_NUM + 32·i`); at the first entry strictly greater than the
record length, write the bytes at the page's free tail
(`INIT_FILE_PAGE_NUM·PAGE_SIZE + i·PAGE_SIZE + PAGE_SIZE - res`), decrement
the entry, and return the file with the `Position`'s page index and in-page
offset `PAGE_SIZE - res`. -/
def insertBytesScan (bytes : List Nat) : FileData → Nat → Nat → Option (FileData × Nat × Nat)
  | _, _, 0 => none
  | f, i, m + 1 =>
    let res := readU32 f (32 * INIT_FILE_PAGE_NUM + i * 32)
    if bytes.length < res then
      let f1 := writeBytesList f
        (INIT_FILE_PAGE_NUM * PAGE_SIZE + i * PAGE_SIZE + PAGE_SIZE - res) bytes
      some (writeU32 f1 (32 * INIT_FILE_PAGE_NUM + i * 32) (res - bytes.length),
            i, PAGE_SIZE - res)
    else insertBytesScan bytes f (i + 1) m

/-- `insert_bytes` of both buffer implementations (`src/data_item/buffer.rs`
396-431 for `LRUBuffer`, 744-779 for `ClockBuffer`; identical bodies).  It
operates directly on the file, bypassing the page cache.  When no free-table
entry fits it doubles the file with `fill_up_to` and retries; `fuel` bounds
the retries (the Rust recursion stops because `fill_up_to` eventually rejects
with `PageNumOutOfSize`). -/
def bufInsertBytes (bytes : List Nat) : Nat → FileData → Except DbError (FileData × Nat × Nat)
  | 0, _ => .error .unexpectedError
  | fuel + 1, f =>
    let pageNum := readU32 f 0
    match insertBytesScan bytes f 0 pageNum with
    | some r => .ok r
    | none => do
      let f1 ← bufFillUpTo f (2 * pageNum)
      bufInsertBytes bytes fuel f1

/-- `LRUBuffer::insert_bytes` (`src/data_item/buffer.rs` 396-431). -/
def lruInsertBytes (bytes : List Nat) (fuel : Nat) (f : FileData) :
    Except DbError (FileData × Nat × Nat) :=
  bufInsertBytes bytes fuel f

/-- `ClockBuffer::insert_bytes` (`src/data_item/buffer.rs` 744-779). -/
def clockInsertBytes (bytes : List Nat) (fuel : Nat) (f : FileData) :
    Except DbError (FileData × Nat × Nat) :=
  bufInsertBytes bytes fuel f

/-! ## Buffer page caches (`src/data_item/buffer.rs`) -/

/-- A cached page: identity `(file_name, page_num)` plus its bytes
(`Page`, `src/page/page_item.rs` 17-21). -/
structure PageRec where
  fileName : String
  pageNum : Nat
  data : PageData

/-- The observable identity and content of a cache entry, used to state frame
properties. -/
def pageObs (e : PageRec × Nat) : String × Nat × PageData :=
  (e.1.fileName, e.1.pageNum, e.1.data)

/-- Write a page's `PAGE_SIZE` bytes to its slot
`(page_num - 1) · PAGE_SIZE + NON_DATA_PAGE · PAGE_SIZE` of its file (the
`seek`/`write_all` pairs of the flush paths). -/
def diskWritePage (d : String → FileData) (pg : PageRec) : String → FileData :=
  fun fn =>
    if fn = pg.fileName then
      fun j =>
        if (pg.pageNum - 1) * PAGE_SIZE + NON_DATA_PAGE * PAGE_SIZE ≤ j ∧
            j < (pg.pageNum - 1) * PAGE_SIZE + NON_DATA_PAGE * PAGE_SIZE + PAGE_SIZE then
          pg.data (j - ((pg.pageNum - 1) * PAGE_SIZE + NON_DATA_PAGE * PAGE_SIZE))
        else d fn j
    else d fn

/-- `LRUBuffer` (`src/data_item/buffer.rs` 75-87): the entry list with its
`SystemTime` stamps, `len`, `buff_size`, the set of open files, and the disk
bytes behind each file.  `clock` models `SystemTime::now()` as a strictly
increasing counter: each call reads the current value and advances it. -/
structure LRUState where
  list : List (PageRec × Nat)
  len : Nat
  buffSize : Nat
  files : List String
  disk : String → FileData
  clock : Nat

/-- The filter of `flush_internal` (`src/data_item/buffer.rs` 143):
`(!has_file_name || file matches) && (!has_page_num || page# matches)`. -/
def lruMatches (fname : Option String) (pnum : Option Nat) (pg : PageRec) : Bool :=
  (match fname with | some f => pg.fileName == f | none => true) &&
  (match pnum with | some p => pg.pageNum == p | none => true)

/-- Body loop of `LRUBuffer::flush_internal` (`src/data_item/buffer.rs`
142-151): for every matching entry, refresh its timestamp (when `updated`)
and write its page to disk.  The `unwrap` of the file handle panics when a
matching page's file is not open; the model reports that as
`unexpectedError`. -/
def lruFlushLoop (files : List String) (fname : Option String) (pnum : Option Nat)
    (updated : Bool) :
    List (PageRec × Nat) → (String → FileData) → Nat →
    Except DbError (List (PageRec × Nat) × (String → FileData) × Nat)
  | [], disk, clock => .ok ([], disk, clock)
  | (pg, t) :: rest, disk, clock =>
    if lruMatches fname pnum pg then
      if pg.fileName ∈ files then
        let t2 := if updated then clock else t
        let clock2 := if updated then clock + 1 else clock
        (lruFlushLoop files fname pnum updated rest (diskWritePage disk pg) clock2).map
          (fun r => ((pg, t2) :: r.1, r.2))
      else .error .unexpectedError
    else
      (lruFlushLoop files fname pnum updated rest disk clock).map
        (fun r => ((pg, t) :: r.1, r.2))

/-- `LRUBuffer::flush_internal` (`src/data_item/buffer.rs` 125-153).  Note: it
returns `Ok` even when no entry matched the filter. -/
def lruFlushInternal (st : LRUState) (fname : Option String) (pnum : Option Nat)
    (updated : Bool) : Except DbError LRUState :=
  (lruFlushLoop st.files fname pnum updated st.list st.disk st.clock).map
    (fun r => { st with list := r.1, disk := r.2.1, clock := r.2.2 })

/-- `LRUBuffer::flush` (`src/data_item/buffer.rs` 368-370). -/
def lruFlush (st : LRUState) (fn : String) (pn : Nat) : Except DbError LRUState :=
  lruFlushInternal st (some fn) (some pn) true

/-- `LRUBuffer::flush_file` (`src/data_item/buffer.rs` 460-462). -/
def lruFlushFile (st : LRUState) (fn : String) : Except DbError LRUState :=
  lruFlushInternal st (some fn) none true

/-- `LRUBuffer::flush_all` (`src/data_item/buffer.rs` 464-466). -/
def lruFlushAll (st : LRUState) : Except DbError LRUState :=
  lruFlushInternal st none none true

/-- Victim scan of the LRU eviction (`src/data_item/buffer.rs` 330-337):
with `min_time` seeded by `SystemTime::now()`, remember the identity of each
entry with a strictly smaller time (ties keep the earlier entry). -/
def lruFindMin : List (PageRec × Nat) → Nat → Option (Nat × String × Nat) →
    Option (Nat × String × Nat)
  | [], _, acc => acc
  | (pg, t) :: rest, minT, acc =>
    if t < minT then lruFindMin rest t (some (t, pg.fileName, pg.pageNum))
    else lruFindMin rest minT acc

/-- Victim relocation scan of `LRUBuffer::write_page` (`src/data_item/buffer.rs`
348-352): the loop has no `break`, so the last entry whose time equals
`min_time` wins. -/
def lruFindTimeLastAux (minT : Nat) : List (PageRec × Nat) → Nat → Option Nat → Option Nat
  | [], _, acc => acc
  | (_, t) :: rest, i, acc =>
    lruFindTimeLastAux minT rest (i + 1) (if t = minT then some i else acc)

/-- `LRUBuffer::write_page` (`src/data_item/buffer.rs` 305-364): update the
entry with matching `(file, page#)`, else append when there is slack, else
evict: find the minimal-time entry, flush it via `self.flush` (which, being
`flush_internal` with `updated = true`, refreshes the victim's timestamp),
then look for an entry still carrying `min_time` to overwrite. -/
def lruWritePage (st : LRUState) (pg : PageRec) : Except DbError LRUState :=
  match List.findIdx?
      (fun e => e.1.fileName == pg.fileName && e.1.pageNum == pg.pageNum) st.list with
  | some i =>
    .ok { st with list := st.list.set i (pg, st.clock), clock := st.clock + 1 }
  | none =>
    if st.len < st.buffSize then
      .ok { st with
            list := st.list ++ [(pg, st.clock)]
            clock := st.clock + 1
            len := st.len + 1 }
    else
      let minTimeSeed := st.clock
      let st1 := { st with clock := st.clock + 1 }
      match lruFindMin st1.list minTimeSeed none with
      | none => .error .unexpectedError
      | some (mt, fn, pn) => do
        let st2 ← lruFlush st1 fn pn
        match lruFindTimeLastAux mt st2.list 0 none with
        | none => .error .unexpectedError
        | some idx =>
          .ok { st2 with list := st2.list.set idx (pg, st2.clock), clock := st2.clock + 1 }

/-- `ClockBuffer` (`src/data_item/buffer.rs` 470-483): entries carry a one-bit
access flag. -/
structure ClockState where
  list : List (PageRec × Nat)
  len : Nat
  buffSize : Nat
  files : List String
  disk : String → FileData
  cur : Nat

/-- Replace the element at index `i` (identity when out of range); Rust's
in-place `self.list[idx] = ...` or field assignment. -/
def listModifyAt : List (PageRec × Nat) → Nat → ((PageRec × Nat) → (PageRec × Nat)) →
    List (PageRec × Nat)
  | [], _, _ => []
  | x :: rest, 0, f => f x :: rest
  | x :: rest, n + 1, f => x :: listModifyAt rest n f

/-- `ClockBuffer::flush` (`src/data_item/buffer.rs` 715-725): write back the
first cached copy of `(file_name, page_num)`, or fail with
`NotInBufferError`. -/
def clockFlushAux (files : List String) (fn : String) (pn : Nat) :
    List (PageRec × Nat) → (String → FileData) → Except DbError (String → FileData)
  | [], _ => .error .notInBufferError
  | (pg, _) :: rest, disk =>
    if pg.fileName == fn && pg.pageNum == pn then
      if fn ∈ files then .ok (diskWritePage disk pg) else .error .unexpectedError
    else clockFlushAux files fn pn rest disk

/-- `ClockBuffer::flush` over the whole state. -/
def clockFlush (st : ClockState) (fn : String) (pn : Nat) : Except DbError ClockState :=
  (clockFlushAux st.files fn pn st.list st.disk).map (fun d => { st with disk := d })

/-- Loop of `ClockBuffer::flush_file` (`src/data_item/buffer.rs` 809-818):
write back every cached page of `file_name`; the entry list is not touched. -/
def clockFlushFileAux (files : List String) (fn : String) :
    List (PageRec × Nat) → (String → FileData) → Except DbError (String → FileData)
  | [], disk => .ok disk
  | (pg, _) :: rest, disk =>
    if pg.fileName == fn then
      if fn ∈ files then clockFlushFileAux files fn rest (diskWritePage disk pg)
      else .error .unexpectedError
    else clockFlushFileAux files fn rest disk

/-- `ClockBuffer::flush_file` (`src/data_item/buffer.rs` 809-818). -/
def clockFlushFile (st : ClockState) (fn : String) : Except DbError ClockState :=
  (clockFlushFileAux st.files fn st.list st.disk).map (fun d => { st with disk := d })

/-- Loop of `ClockBuffer::flush_all` (`src/data_item/buffer.rs` 820-827). -/
def clockFlushAllAux (files : List String) :
    List (PageRec × Nat) → (String → FileData) → Except DbError (String → FileData)
  | [], disk => .ok disk
  | (pg, _) :: rest, disk =>
    if pg.fileName ∈ files then clockFlushAllAux files rest (diskWritePage disk pg)
    else .error .unexpectedError

/-- `ClockBuffer::flush_all` (`src/data_item/buffer.rs` 820-827). -/
def clockFlushAll (st : ClockState) : Except DbError ClockState :=
  (clockFlushAllAux st.files st.list st.disk).map (fun d => { st with disk := d })

/-- Clock-hand sweep (`src/data_item/buffer.rs` 681-698): visit slot
`(cur + i) % buff_size` for `i = 0, 1, ...` (`buff_size` visits); clear each
1-bit along the way; stop at the first 0-bit, which becomes the new cursor;
if every bit was 1 the cursor stays. -/
def clockSweep (buffSize cur : Nat) :
    List (PageRec × Nat) → Nat → Nat → List (PageRec × Nat) × Option Nat
  | l, _, 0 => (l, none)
  | l, i, m + 1 =>
    let idx := (cur + i) % buffSize
    if (l.getD idx ⟨⟨"", 0, zeroPage⟩, 0⟩).2 = 1 then
      clockSweep buffSize cur (listModifyAt l idx (fun e => (e.1, e.2 - 1))) (i + 1) m
    else (l, some idx)

/-- `ClockBuffer::write_page` (`src/data_item/buffer.rs` 660-711).  The cache
hit test at line 663 compares only `page_num`; the file name is ignored.  On
a hit the page is replaced and the access bit is left as it was. -/
def clockWritePage (st : ClockState) (pg : PageRec) : Except DbError ClockState :=
  match List.findIdx? (fun e => e.1.pageNum == pg.pageNum) st.list with
  | some i => .ok { st with list := listModifyAt st.list i (fun e => (pg, e.2)) }
  | none =>
    if st.len < st.buffSize then
      .ok { st with len := st.len + 1, list := st.list ++ [(pg, 1)] }
    else
      let swept := clockSweep st.buffSize st.cur st.list 0 st.buffSize
      let cur2 := match swept.2 with | some ind => ind | none => st.cur
      let st1 := { st with list := swept.1, cur := cur2 }
      let victim := (st1.list.getD cur2 ⟨⟨"", 0, zeroPage⟩, 0⟩).1
      do
        let st2 ← clockFlush st1 victim.fileName victim.pageNum
        .ok { st2 with list := listModifyAt st2.list cur2 (fun _ => (pg, 1)) }

/-! ## Concrete inputs used by witnesses and counterexamples -/

/-- The all-zero file (a freshly zero-filled region). -/
def zeroFile : FileData := fun _ => 0

/-- The bytes of the key `"Hello"`. -/
def helloKey : List Nat := [72, 101, 108, 108, 111]

/-- The bytes of the value `"World"`. -/
def worldVal : List Nat := [87, 111, 114, 108, 100]

/-- The pair `("Hello", "World")`. -/
def kvHello : KVPair := ⟨helloKey, worldVal⟩

/-- An internal-node page: `num_children = 2`, children at offsets 19 and 27,
one key `"A"` at offset `19 + 2 · 8 = 35`. -/
def internalPageA : PageData :=
  writeByte (writeBytesList zeroPage 11 (beBytes8 2)) 35 65

/-- An internal node over `internalPageA`. -/
def internalNodeA : DbNode :=
  { nodeType := .internal, parentOffset := 0, isRoot := true, valid := false,
    offset := 1, page := internalPageA, pageNum := 1 }

/-- A pager that has handed out one empty data page. -/
def pagerOnePage : PagerState :=
  { cnt := 1, maxSize := 50, remain := [(0, 0), (PAGE_SIZE, 0)], store := fun _ => zeroPage }

/-- Extract the state of a successful `insert_value`, with a fallback. -/
def pagerResState (e : Except DbError (Nat × PagerState)) (d : PagerState) : PagerState :=
  match e with
  | .ok (_, s) => s
  | .error _ => d

/-- A three-byte record. -/
def recBytes : List Nat := [9, 8, 7]

/-- A file image whose page-count header is 14 and whose free-table entry 0
(at offset 128) is `PAGE_SIZE`. -/
def fileFreeTable : FileData :=
  writeU32 (writeU32 zeroFile 0 14) 128 PAGE_SIZE

/-- A freshly `add_file`d image: page-count header 4. -/
def freshFile : FileData := writeU32 zeroFile 0 4

/-- A leaf-node page holding `num_pairs = 10 = LEAF_MAX_PAIRS` pairs. -/
def leafPage10 : PageData := writeBytesList zeroPage 11 (beBytes8 10)

/-- A leaf node over `leafPage10`. -/
def leafNode10 : DbNode :=
  { nodeType := .leaf, parentOffset := 0, isRoot := false, valid := false,
    offset := 1, page := leafPage10, pageNum := 1 }

/-- A fresh root leaf node (all-zero page). -/
def leafNode0 : DbNode :=
  { nodeType := .leaf, parentOffset := 0, isRoot := true, valid := false,
    offset := 1, page := zeroPage, pageNum := 1 }

/-- An everything-zero disk. -/
def zeroDisk : String → FileData := fun _ => zeroFile

/-- A full 2-slot LRU cache holding pages 1 and 2 of `"a.db"` with timestamps
5 and 7, clock at 10. -/
def lruFull : LRUState :=
  { list := [(⟨"a.db", 1, zeroPage⟩, 5), (⟨"a.db", 2, zeroPage⟩, 7)],
    len := 2, buffSize := 2, files := ["a.db"], disk := zeroDisk, clock := 10 }

/-- A page 3 of `"a.db"` to submit to the full LRU cache. -/
def pageA3 : PageRec := ⟨"a.db", 3, zeroPage⟩

/-- A 2-slot CLOCK cache holding only page 1 of `"a.db"`. -/
def clockOne : ClockState :=
  { list := [(⟨"a.db", 1, zeroPage⟩, 1)], len := 1, buffSize := 2,
    files := ["a.db"], disk := zeroDisk, cur := 0 }

/-- Page 1 of a different file `"b.db"`. -/
def pageB1 : PageRec := ⟨"b.db", 1, zeroPage⟩

/-- An LRU cache holding only page 2 of `"test.db"`. -/
def lruOnlyPage2 : LRUState :=
  { list := [(⟨"test.db", 2, zeroPage⟩, 3)], len := 1, buffSize := 4,
    files := ["test.db"], disk := zeroDisk, clock := 5 }

/-- A CLOCK cache holding only page 2 of `"test.db"`. -/
def clockOnlyPage2 : ClockState :=
  { list := [(⟨"test.db", 2, zeroPage⟩, 1)], len := 1, buffSize := 4,
    files := ["test.db"], disk := zeroDisk, cur := 0 }

/-! ## Byte-level lemmas -/
theorem writeBytesList_apply (bs : List Nat) (p : PageData) (off j : Nat) :
    writeBytesList p off bs j =
      if off ≤ j ∧ j < off + bs.length then bs.getD (j - off) 0 else p j := by
  induction bs generalizing p off with
  | nil =>
    simp only [writeBytesList, List.length_nil, Nat.add_zero]
    rw [if_neg (by omega)]
  | cons b rest ih =>
    simp only [writeBytesList, ih, List.length_cons]
    by_cases h1 : off + 1 ≤ j ∧ j < off + 1 + rest.length
    · have hj : j - off = (j - (off + 1)) + 1 := by omega
      simp only [if_pos h1, hj, List.getD_cons_succ]
      rw [if_pos (by omega)]
    · rw [if_neg h1]
      by_cases h2 : j = off
      · subst h2
        simp [writeByte]
      · rw [writeByte, if_neg h2, if_neg (by omega)]

theorem writeBytesList_apply_lt (bs : List Nat) (p : PageData) (off j : Nat)
    (h : j < off) : writeBytesList p off bs j = p j := by
  rw [writeBytesList_apply, if_neg (by omega)]

theorem writeBytesList_apply_ge (bs : List Nat) (p : PageData) (off j : Nat)
    (h : off + bs.length ≤ j) : writeBytesList p off bs j = p j := by
  rw [writeBytesList_apply, if_neg (by omega)]

theorem readBytes_writeBytesList (bs : List Nat) (p : PageData) (off : Nat) :
    readBytes (writeBytesList p off bs) off bs.length = bs := by
  apply List.ext_getElem
  · simp [readBytes]
  · intro i h1 h2
    simp only [readBytes, List.getElem_map, List.getElem_range]
    rw [writeBytesList_apply, if_pos (by simp [readBytes] at h1; omega)]
    simp only [Nat.add_sub_cancel_left]
    exact List.getD_eq_getElem bs 0 h2

theorem readBytes_congr (p q : PageData) (off n : Nat)
    (h : ∀ j, off ≤ j → j < off + n → p j = q j) :
    readBytes p off n = readBytes q off n := by
  simp only [readBytes]
  apply List.map_congr_left
  intro i hi
  simp only [List.mem_range] at hi
  exact h (off + i) (by omega) (by omega)

theorem fromBE_beBytes8 (v : Nat) (h : v < 2 ^ 64) : fromBE (beBytes8 v) = v := by
  simp only [fromBE, beBytes8, List.foldl]
  omega

theorem fromBE_beBytes4 (v : Nat) (h : v < 2 ^ 32) : fromBE (beBytes4 v) = v := by
  simp only [fromBE, beBytes4, List.foldl]
  omega

theorem getValueFromOffset_writeBytesList_beBytes8 (p : PageData) (off v : Nat)
    (h : v < 2 ^ 64) :
    getValueFromOffset (writeBytesList p off (beBytes8 v)) off = v := by
  have hlen : (beBytes8 v).length = 8 := by simp [beBytes8]
  rw [getValueFromOffset, PTR_SIZE, ← hlen, readBytes_writeBytesList,
    fromBE_beBytes8 v h]

theorem readU32_writeU32 (f : FileData) (off v : Nat) (h : v < 2 ^ 32) :
    readU32 (writeU32 f off v) off = v := by
  have hlen : (beBytes4 v).length = 4 := by simp [beBytes4]
  rw [readU32, writeU32, ← hlen, readBytes_writeBytesList, fromBE_beBytes4 v h]

theorem readU32_congr (f g : FileData) (off : Nat)
    (h : ∀ j, off ≤ j → j < off + 4 → f j = g j) : readU32 f off = readU32 g off :=
  congrArg fromBE (readBytes_congr f g off 4 h)


/-! ## Claim theorems -/

/-- **C1.** The claim states that each of at most `LEAF_MAX_PAIRS - 1` distinct
keys inserted into a fresh tree is returned by `search` with its value.  On
the code this fails already for a single key: `insert` of `("Hello","World")`
into a fresh tree succeeds (first conjunct: the key is recorded in the root
leaf, as `get_keys` shows), but the subsequent `search` of `"Hello"` returns
`UnexpectedError` instead of the pair, because `search_node` calls
`get_key_value_pairs` on the match, which rejects any leaf whose valid byte
(offset 2) is not `0x01` — and no code path ever initialises that byte.  The
repository's own test `test_insert_search_tree` expects the search to
succeed. -/
theorem c1_insert_then_search_fails :
    (btreeInsert btreeNew kvHello 10).map (fun t1 => getKeys t1.root) =
      .ok (.ok [helloKey]) ∧
    (btreeInsert btreeNew kvHello 10).map (fun t1 => btreeSearch t1 helloKey 10) =
      .ok (.error .unexpectedError) := by
  exact ⟨rfl, rfl⟩

/-- **C3.** The claim states that inserting a key already present fails with
`KeyAlreadyExists` and leaves the tree unchanged.  On the code the second
insert of `"Hello"` instead fails with `UnexpectedError`: the duplicate is
detected inside `search_node_inserted` via `get_key_value_pairs`, whose
uninitialised-valid-byte check fires first and propagates through the `?`
operator, so the `KeyAlreadyExists` branch of `insert` is never reached. -/
theorem c3_duplicate_insert_wrong_error :
    (btreeInsert btreeNew kvHello 10).map (fun t1 =>
      (btreeInsert t1 ⟨helloKey, [88]⟩ 10).map (fun _ => 0)) =
      .ok (.error .unexpectedError) := by
  exact rfl

/-- **C6, counterexample.** The claim's threshold `(INIT_FILE_PAGE_NUM + n + 1) · 8
> PAGE_SIZE` predicts that `fill_up_to(file, 124)` on a fresh file succeeds
(`129 · 8 = 1032 ≤ 4096`), but the source multiplies by 32, and
`129 · 32 = 4128 > 4096` makes it fail with `PageNumOutOfSize`. -/
theorem c6_threshold_counterexample :
    lruFillUpTo freshFile 124 = .error .pageNumOutOfSize ∧
    clockFillUpTo freshFile 124 = .error .pageNumOutOfSize ∧
    ¬ (INIT_FILE_PAGE_NUM + 124 + 1) * 8 > PAGE_SIZE := by
  exact ⟨rfl, rfl, by decide⟩

/-- **C7, counterexample.** The claim states `add_pair` fails when
`num_pairs ≥ LEAF_MAX_PAIRS = 10`.  The source has no capacity check: on a
leaf already holding 10 pairs it succeeds and bumps the count to 11. -/
theorem c7_no_capacity_check_counterexample :
    (addKeyValuePair leafNode10 kvHello).map
      (fun n2 => getValueFromOffset n2.page LEAF_NODE_NUM_PAIRS_OFFSET) = .ok 11 := by
  exact rfl

/-- **C8.** The claim states `write_page` always succeeds, replacing a policy
victim when the cache is full.  On a full LRU cache the code instead returns
`UnexpectedError`: after the victim is found, `self.flush` (with
`updated = true`) refreshes the victim's timestamp, so the relocation loop
looking for an entry whose time still equals `min_time` finds nothing (first
conjunct).  The CLOCK variant's hit test compares only `page_num`, so
submitting page 1 of `"b.db"` to a cache holding page 1 of `"a.db"`
overwrites that entry in place (cache stays at one entry) instead of
appending a second entry as the claim's `(file_name, page_num)` matching
requires (second conjunct). -/
theorem c8_write_page_divergences :
    lruWritePage lruFull pageA3 = .error .unexpectedError ∧
    (clockWritePage clockOne pageB1).map
      (fun s => (s.list.map (fun e => (e.1.fileName, e.1.pageNum)), s.len)) =
      .ok ([("b.db", 1)], 1) := by
  exact ⟨rfl, rfl⟩

/-- **C9.** The claim states that `flush(file, page#)` of both buffers fails
with `NotInBuffer` exactly when the page is not cached.  The CLOCK buffer
does (second conjunct), but the LRU buffer's `flush` is `flush_internal`,
which silently returns `Ok` when no cache entry matches — flushing the
uncached page 1 succeeds and leaves the single cached entry (page 2)
untouched (first conjunct), contradicting the doc comment above
`LRUBuffer::flush` itself. -/
theorem c9_lru_flush_missing_page_ok :
    (lruFlush lruOnlyPage2 "test.db" 1).map
      (fun s => s.list.map (fun e => (e.1.fileName, e.1.pageNum, e.2))) =
      .ok [("test.db", 2, 3)] ∧
    clockFlush clockOnlyPage2 "test.db" 1 = .error .notInBufferError := by
  exact ⟨rfl, rfl⟩

/-- Specification of the first-fit scan of `Pager::insert_value`: a `some`
result names an index `i ≥ 1` holding a pair `(s, o)` with `len < s`. -/
theorem findFitAux_spec (len : Nat) :
    ∀ (l : List (Nat × Nat)) (j i s o), findFitAux len l j = some (i, s, o) →
      j ≤ i ∧ i - j < l.length ∧ l.getD (i - j) (0, 0) = (s, o) ∧ len < s ∧ 1 ≤ i := by
  intro l
  induction l with
  | nil => intro j i s o h; simp [findFitAux] at h
  | cons e rest ih =>
    intro j i s o h
    obtain ⟨siz, off⟩ := e
    by_cases hj : j = 0
    · subst hj
      rw [findFitAux, if_pos rfl] at h
      obtain ⟨h1, h2, h3, h4, h5⟩ := ih 1 i s o h
      refine ⟨Nat.zero_le i, by simp only [List.length_cons]; omega, ?_, h4, h5⟩
      have hsplit : i - 0 = (i - 1) + 1 := by omega
      rw [hsplit, List.getD_cons_succ]
      exact h3
    · rw [findFitAux, if_neg hj] at h
      by_cases hfit : len < siz
      · rw [if_pos hfit] at h
        simp only [Option.some.injEq, Prod.mk.injEq] at h
        obtain ⟨he1, he2, he3⟩ := h
        subst he1; subst he2; subst he3
        exact ⟨Nat.le_refl _, by simp, by simp, hfit, by omega⟩
      · rw [if_neg hfit] at h
        obtain ⟨h1, h2, h3, h4, h5⟩ := ih (j + 1) i s o h
        refine ⟨by omega, by simp only [List.length_cons]; omega, ?_, h4, h5⟩
        have hsplit : i - j = (i - (j + 1)) + 1 := by omega
        rw [hsplit, List.getD_cons_succ]
        exact h3

/-- **C2.** `insert_value`/`get_value` round-trip: if `insert_value(b)` on a
pager state whose capacity list satisfies the maintained invariant
`remaining + offset = PAGE_SIZE` (for every entry past index 0) returns
global offset `g`, then `get_value(g, |b|)` returns exactly `b`; moreover the
record was placed in data page `i` at in-page offset `o` with
`g = (i - 1) · PAGE_SIZE + o`, and `get_value`'s decomposition
`page# = g / PAGE_SIZE + 1`, `page_offset = g % PAGE_SIZE` recovers exactly
`(i, o)`.  `hrl` records the Rust indexing precondition
(`remain_size[self.cnt]` must be in bounds). -/
theorem c2_pager_insert_get_roundtrip (st : PagerState) (bytes : List Nat) (g : Nat)
    (st2 : PagerState)
    (hlen : 0 < bytes.length) (hlt : bytes.length < PAGE_SIZE)
    (hinv : ∀ i < st.remain.length, 1 ≤ i →
      (st.remain.getD i (0, 0)).1 + (st.remain.getD i (0, 0)).2 = PAGE_SIZE)
    (hrl : st.remain.length = st.cnt + 1)
    (h : pagerInsertValue st bytes = .ok (g, st2)) :
    pagerGetValue st2 g bytes.length = .ok bytes ∧
    ∃ i o, 1 ≤ i ∧ o + bytes.length ≤ PAGE_SIZE ∧ g = (i - 1) * PAGE_SIZE + o ∧
      g / PAGE_SIZE + 1 = i ∧ g % PAGE_SIZE = o ∧
      readBytes (st2.store i) o bytes.length = bytes := by
  simp only [pagerInsertValue] at h
  cases hf : findFitAux bytes.length st.remain 0 with
  | some t =>
    obtain ⟨i, s, o⟩ := t
    rw [hf] at h
    simp only [Except.ok.injEq, Prod.mk.injEq] at h
    obtain ⟨hg, hst2⟩ := h
    obtain ⟨-, hlen2, hget, hfit, hge1⟩ := findFitAux_spec bytes.length st.remain 0 i s o hf
    simp only [Nat.sub_zero] at hlen2 hget
    have hso : s + o = PAGE_SIZE := by
      have := hinv i hlen2 hge1
      rw [hget] at this
      exact this
    have holt : o < PAGE_SIZE := by omega
    have hdiv : g / PAGE_SIZE = i - 1 := by
      rw [← hg]
      simp only [PAGE_SIZE] at holt ⊢
      omega
    have hmod : g % PAGE_SIZE = o := by
      rw [← hg]
      simp only [PAGE_SIZE] at holt ⊢
      omega
    have hstore : st2.store i = writeBytesAtOffset (st.store i) bytes o bytes.length := by
      rw [← hst2]
      simp
    have hread : readBytes (st2.store i) o bytes.length = bytes := by
      rw [hstore, writeBytesAtOffset, List.take_length]
      exact readBytes_writeBytesList bytes (st.store i) o
    constructor
    · rw [pagerGetValue, hdiv, hmod]
      have hi1 : i - 1 + 1 = i := by omega
      rw [hi1, hread]
    · refine ⟨i, o, hge1, by omega, by rw [← hg, Nat.add_comm], by rw [hdiv]; omega,
        hmod, hread⟩
  | none =>
    rw [hf] at h
    simp only [pagerGetNewPage, pagerFillUpTo, Bind.bind, Except.bind] at h
    by_cases hms : st.maxSize ≤ st.cnt
    · rw [if_pos hms] at h
      by_cases hcap : PAGE_SIZE < (INIT_FILE_PAGE_NUM + 2 * st.maxSize + 1) * 32
      · rw [if_pos hcap] at h
        simp at h
      · rw [if_neg hcap] at h
        simp only [Except.ok.injEq, Prod.mk.injEq] at h
        obtain ⟨hg, hst2⟩ := h
        have hcntg : g = st.cnt * PAGE_SIZE := by rw [← hg]; simp
        have hdiv : g / PAGE_SIZE = st.cnt := by
          rw [hcntg]; simp [PAGE_SIZE]
        have hmod : g % PAGE_SIZE = 0 := by
          rw [hcntg]; simp [PAGE_SIZE]
        have hstore : st2.store (st.cnt + 1) =
            writeBytesAtOffset (st.store (st.cnt + 1)) bytes 0 bytes.length := by
          rw [← hst2]
          simp
        have hread : readBytes (st2.store (st.cnt + 1)) 0 bytes.length = bytes := by
          rw [hstore, writeBytesAtOffset, List.take_length]
          exact readBytes_writeBytesList bytes (st.store (st.cnt + 1)) 0
        constructor
        · rw [pagerGetValue, hdiv, hmod, hread]
        · exact ⟨st.cnt + 1, 0, by omega, by omega, by simp [hcntg],
            by rw [hdiv], by rw [hmod], hread⟩
    · rw [if_neg hms] at h
      simp only [Except.ok.injEq, Prod.mk.injEq] at h
      obtain ⟨hg, hst2⟩ := h
      have hcntg : g = st.cnt * PAGE_SIZE := by rw [← hg]; simp
      have hdiv : g / PAGE_SIZE = st.cnt := by
        rw [hcntg]; simp [PAGE_SIZE]
      have hmod : g % PAGE_SIZE = 0 := by
        rw [hcntg]; simp [PAGE_SIZE]
      have hstore : st2.store (st.cnt + 1) =
          writeBytesAtOffset (st.store (st.cnt + 1)) bytes 0 bytes.length := by
        rw [← hst2]
        simp
      have hread : readBytes (st2.store (st.cnt + 1)) 0 bytes.length = bytes := by
        rw [hstore, writeBytesAtOffset, List.take_length]
        exact readBytes_writeBytesList bytes (st.store (st.cnt + 1)) 0
      constructor
      · rw [pagerGetValue, hdiv, hmod, hread]
      · exact ⟨st.cnt + 1, 0, by omega, by omega, by simp [hcntg],
          by rw [hdiv], by rw [hmod], hread⟩

/-- Witness for **C2**: inserting `[9, 8, 7]` into a one-page pager yields
global offset 0, and `get_value(0, 3)` reads the record back. -/
theorem c2_pager_insert_get_roundtrip_witness :
    pagerInsertValue pagerOnePage recBytes =
      .ok (0, pagerResState (pagerInsertValue pagerOnePage recBytes) pagerOnePage) ∧
    pagerGetValue (pagerResState (pagerInsertValue pagerOnePage recBytes) pagerOnePage)
      0 recBytes.length = .ok recBytes := by
  refine ⟨rfl, ?_⟩
  exact (c2_pager_insert_get_roundtrip pagerOnePage recBytes 0
    (pagerResState (pagerInsertValue pagerOnePage recBytes) pagerOnePage)
    (by decide) (by decide) (by decide) (by decide) rfl).1

/-- The internal-node scan of `search_node` finds nothing when no stored key
dominates the search key. -/
theorem firstGeAux_eq_none (k : List Nat) (keys : List (List Nat))
    (h : ∀ x ∈ keys, bytesLe k x = false) : ∀ i, firstGeAux k keys i = none := by
  induction keys with
  | nil => intro i; rfl
  | cons x rest ih =>
    intro i
    simp only [firstGeAux, h x (List.mem_cons_self x rest), Bool.false_eq_true, if_false]
    exact ih (fun y hy => h y (List.mem_cons_of_mem x hy)) (i + 1)

/-- The internal-node scan of `search_node` returns exactly the first index
whose key dominates the search key. -/
theorem firstGeAux_eq_some (k : List Nat) :
    ∀ (keys : List (List Nat)) (i j : Nat), i < keys.length →
    bytesLe k (keys.getD i []) = true →
    (∀ l, l < i → bytesLe k (keys.getD l []) = false) →
    firstGeAux k keys j = some (j + i) := by
  intro keys
  induction keys with
  | nil => intro i j hi; simp at hi
  | cons x rest ih =>
    intro i j hi hge hbefore
    cases i with
    | zero =>
      simp only [List.getD_cons_zero] at hge
      simp [firstGeAux, hge]
    | succ m =>
      have hx : bytesLe k x = false := by
        have := hbefore 0 (Nat.succ_pos m)
        simpa using this
      simp only [firstGeAux, hx, Bool.false_eq_true, if_false]
      have hrec := ih m (j + 1) (by simpa using hi)
        (by simpa using hge)
        (fun l hl => by simpa using hbefore (l + 1) (by omega))
      rw [hrec]
      congr 1
      omega

/-- **C4.** At an internal node, the non-insert `search_node` selects the
first stored key `k_i` with `k_i ≥ search_key` and descends into child `i`
(second conjunct); when no stored key dominates the search key it fails with
`KeyNotFound` (first conjunct).  The Rust receiver is `&self` and the branch
calls no mutating node operation, so no key is widened and no node is
modified — the model's `searchNode` is a read-only function of the page
store by construction. -/
theorem c4_search_internal_first_ge (store : Nat → PageData) (fuel : Nat) (n : DbNode)
    (searchKey : List Nat) (keys : List (List Nat))
    (ht : n.nodeType = .internal) (hk : getKeys n = .ok keys) :
    ((∀ x ∈ keys, bytesLe searchKey x = false) →
      searchNode store (fuel + 1) n searchKey = .error .keyNotFound) ∧
    (∀ i, i < keys.length → bytesLe searchKey (keys.getD i []) = true →
      (∀ j, j < i → bytesLe searchKey (keys.getD j []) = false) →
      ∀ children childOff, getChildren n = .ok children → children[i]? = some childOff →
        searchNode store (fuel + 1) n searchKey =
          ((nodeTryFrom (store (childOff / PAGE_SIZE)) childOff).bind
            (fun child => searchNode store fuel child searchKey))) := by
  constructor
  · intro hall
    have hnone : firstGeIdx keys searchKey = none :=
      firstGeAux_eq_none searchKey keys hall 0
    simp [searchNode, ht, hk, Bind.bind, Except.bind, hnone]
  · intro i hi hge hbefore children childOff hch hidx
    have hsome : firstGeIdx keys searchKey = some i := by
      simpa [firstGeIdx] using firstGeAux_eq_some searchKey keys i 0 hi hge hbefore
    simp [searchNode, ht, hk, Bind.bind, Except.bind, hsome, hch, hidx]

/-- Witness for **C4**: on an internal node holding the single key `"A"`,
searching for `"Z"` fails with `KeyNotFound`. -/
theorem c4_search_internal_first_ge_witness :
    searchNode (fun _ => zeroPage) 1 internalNodeA [90] = .error .keyNotFound :=
  (c4_search_internal_first_ge (fun _ => zeroPage) 0 internalNodeA [90] [[65]]
    rfl rfl).1 (by decide)

/-- **C7, amended.** `add_key_value_pair` on a leaf always appends the pair at
the tail slot and increments `num_pairs` — there is no capacity check, so it
does *not* fail at `num_pairs ≥ LEAF_MAX_PAIRS`.  `hcap` bounds `num_pairs`
so that the Rust slice writes stay inside the page (beyond
`num_pairs > 202` the Rust code would panic rather than return an error). -/
theorem c7_add_pair_appends_unconditionally (n : DbNode) (kv : KVPair) (np : Nat)
    (ht : n.nodeType = .leaf)
    (hn : getValueFromOffset n.page LEAF_NODE_NUM_PAIRS_OFFSET = np)
    (hcap : np ≤ 202) :
    ∃ n2, addKeyValuePair n kv = .ok n2 ∧
      getValueFromOffset n2.page LEAF_NODE_NUM_PAIRS_OFFSET = np + 1 ∧
      readBytes n2.page (LEAF_NODE_HEADER_SIZE + (KEY_SIZE + VALUE_SIZE) * np)
        (kv.key.take KEY_SIZE).length = kv.key.take KEY_SIZE ∧
      readBytes n2.page (LEAF_NODE_HEADER_SIZE + (KEY_SIZE + VALUE_SIZE) * np + KEY_SIZE)
        (kv.value.take VALUE_SIZE).length = kv.value.take VALUE_SIZE := by
  set off := LEAF_NODE_HEADER_SIZE + (KEY_SIZE + VALUE_SIZE) * np with hoffdef
  have hoffv : off = 19 + 20 * np := by
    simp [hoffdef, LEAF_NODE_HEADER_SIZE, KEY_SIZE, VALUE_SIZE, COMMON_NODE_HEADER_SIZE,
      PTR_SIZE]
  set p1 := writeBytesList n.page LEAF_NODE_NUM_PAIRS_OFFSET (beBytes8 (np + 1)) with hp1
  set p2 := writeBytesList p1 off (kv.key.take KEY_SIZE) with hp2
  set p3 := writeBytesList p2 (off + KEY_SIZE) (kv.value.take VALUE_SIZE) with hp3
  have hklen : (kv.key.take KEY_SIZE).length ≤ KEY_SIZE := by
    simp
  have hn11 : getValueFromOffset n.page 11 = np := by
    simpa only [LEAF_NODE_NUM_PAIRS_OFFSET, COMMON_NODE_HEADER_SIZE] using hn
  have heq : addKeyValuePair n kv = .ok { n with page := p3 } := by
    simp only [addKeyValuePair, ht, writeValueAtOffset, writeBytesAtOffset,
      LEAF_NODE_NUM_PAIRS_OFFSET, COMMON_NODE_HEADER_SIZE, PAGE_SIZE, PTR_SIZE, hn11]
    rfl
  refine ⟨_, heq, ?_, ?_, ?_⟩
  · show getValueFromOffset p3 LEAF_NODE_NUM_PAIRS_OFFSET = np + 1
    have h1 : readBytes p3 LEAF_NODE_NUM_PAIRS_OFFSET PTR_SIZE
        = readBytes p1 LEAF_NODE_NUM_PAIRS_OFFSET PTR_SIZE := by
      apply readBytes_congr
      intro j hj1 hj2
      simp only [LEAF_NODE_NUM_PAIRS_OFFSET, COMMON_NODE_HEADER_SIZE, PTR_SIZE] at hj2
      rw [hp3, writeBytesList_apply_lt _ _ _ _ (by omega),
        hp2, writeBytesList_apply_lt _ _ _ _ (by omega)]
    rw [getValueFromOffset, h1, ← getValueFromOffset, hp1,
      getValueFromOffset_writeBytesList_beBytes8 _ _ _ (by omega)]
  · show readBytes p3 off (kv.key.take KEY_SIZE).length = kv.key.take KEY_SIZE
    have h1 : readBytes p3 off (kv.key.take KEY_SIZE).length
        = readBytes p2 off (kv.key.take KEY_SIZE).length := by
      apply readBytes_congr
      intro j hj1 hj2
      rw [hp3, writeBytesList_apply_lt _ _ _ _ (by omega)]
    rw [h1, hp2, readBytes_writeBytesList]
  · show readBytes p3 (off + KEY_SIZE) (kv.value.take VALUE_SIZE).length
        = kv.value.take VALUE_SIZE
    rw [hp3, readBytes_writeBytesList]

/-- Witness for **C7**: appending `("Hello","World")` to an empty leaf. -/
theorem c7_add_pair_appends_witness :
    ∃ n2, addKeyValuePair leafNode0 kvHello = .ok n2 ∧
      getValueFromOffset n2.page LEAF_NODE_NUM_PAIRS_OFFSET = 0 + 1 ∧
      readBytes n2.page (LEAF_NODE_HEADER_SIZE + (KEY_SIZE + VALUE_SIZE) * 0)
        (kvHello.key.take KEY_SIZE).length = kvHello.key.take KEY_SIZE ∧
      readBytes n2.page (LEAF_NODE_HEADER_SIZE + (KEY_SIZE + VALUE_SIZE) * 0 + KEY_SIZE)
        (kvHello.value.take VALUE_SIZE).length = kvHello.value.take VALUE_SIZE :=
  c7_add_pair_appends_unconditionally leafNode0 kvHello 0 rfl rfl (by decide)

/-- Entries written by the tail loop of `fill_up_to` do not touch earlier
offsets. -/
theorem writeU32Entries_apply_lt (v : Nat) :
    ∀ (m : Nat) (f : FileData) (off j : Nat), j < off → writeU32Entries v f off m j = f j := by
  intro m
  induction m with
  | zero => intro f off j h; rfl
  | succ k ih =>
    intro f off j h
    rw [writeU32Entries, ih _ _ _ (by omega)]
    exact writeBytesList_apply_lt _ _ _ _ h

/-- **C6, amended.** `fill_up_to(file, n)` of both buffers fails with
`PageNumOutOfSize` exactly when `(INIT_FILE_PAGE_NUM + n + 1) · 32 > PAGE_SIZE`
(the source multiplies by 32, not by 8 as the claim states); otherwise it
grows the file and succeeds, updating the page-count header to
`INIT_FILE_PAGE_NUM + n`.  `hpn` confines the statement to requests at or
above the stored page count, where the Rust subtraction
`num_of_page - page_num` cannot underflow. -/
theorem c6_fill_up_to_threshold_32 (f : FileData) (n : Nat) (hpn : readU32 f 0 ≤ n) :
    (lruFillUpTo f n = .error .pageNumOutOfSize ↔
      (INIT_FILE_PAGE_NUM + n + 1) * 32 > PAGE_SIZE) ∧
    (clockFillUpTo f n = .error .pageNumOutOfSize ↔
      (INIT_FILE_PAGE_NUM + n + 1) * 32 > PAGE_SIZE) ∧
    ((INIT_FILE_PAGE_NUM + n + 1) * 32 ≤ PAGE_SIZE →
      ∃ f2, lruFillUpTo f n = .ok f2 ∧ clockFillUpTo f n = .ok f2 ∧
        readU32 f2 0 = INIT_FILE_PAGE_NUM + n) := by
  by_cases hc : PAGE_SIZE < (INIT_FILE_PAGE_NUM + n + 1) * 32
  · refine ⟨?_, ?_, ?_⟩
    · simp [lruFillUpTo, bufFillUpTo, hc]
    · simp [clockFillUpTo, bufFillUpTo, hc]
    · intro hcon; omega
  · refine ⟨?_, ?_, ?_⟩
    · simp [lruFillUpTo, bufFillUpTo, hc]
    · simp [clockFillUpTo, bufFillUpTo, hc]
    · intro _
      refine ⟨writeU32Entries PAGE_SIZE
          (writeU32 (writeU32 (fileWriteZeros f (readU32 f 0 * PAGE_SIZE)
            ((n - readU32 f 0 + INIT_FILE_PAGE_NUM) * PAGE_SIZE)) 0 (INIT_FILE_PAGE_NUM + n))
            4 (PAGE_SIZE - (INIT_FILE_PAGE_NUM + n + 1) * 32))
          ((1 + readU32 f 0) * 32) (n - readU32 f 0 + INIT_FILE_PAGE_NUM), ?_, ?_, ?_⟩
      · simp only [lruFillUpTo, bufFillUpTo, if_neg hc]
      · simp only [clockFillUpTo, bufFillUpTo, if_neg hc]
      · set pn := readU32 f 0 with hpn0
        set A := fileWriteZeros f (pn * PAGE_SIZE)
          ((n - pn + INIT_FILE_PAGE_NUM) * PAGE_SIZE) with hA
        set B := writeU32 A 0 (INIT_FILE_PAGE_NUM + n) with hB
        set C := writeU32 B 4 (PAGE_SIZE - (INIT_FILE_PAGE_NUM + n + 1) * 32) with hC
        have s1 : readU32 (writeU32Entries PAGE_SIZE C ((1 + pn) * 32)
            (n - pn + INIT_FILE_PAGE_NUM)) 0 = readU32 C 0 :=
          readU32_congr _ _ 0 (fun j h1 h2 => writeU32Entries_apply_lt _ _ _ _ _ (by omega))
        have s2 : readU32 C 0 = readU32 B 0 := by
          rw [hC, writeU32]
          exact readU32_congr _ _ 0 (fun j h1 h2 => writeBytesList_apply_lt _ _ _ _ (by omega))
        have s3 : readU32 B 0 = INIT_FILE_PAGE_NUM + n := by
          rw [hB]
          exact readU32_writeU32 A 0 (INIT_FILE_PAGE_NUM + n)
            (by simp only [PAGE_SIZE, INIT_FILE_PAGE_NUM] at hc ⊢; omega)
        rw [s1, s2, s3]

/-- Witness for **C6** (amended): growing a fresh file to 10 data pages. -/
theorem c6_fill_up_to_threshold_32_witness :
    (lruFillUpTo freshFile 10 = .error .pageNumOutOfSize ↔
      (INIT_FILE_PAGE_NUM + 10 + 1) * 32 > PAGE_SIZE) ∧
    (clockFillUpTo freshFile 10 = .error .pageNumOutOfSize ↔
      (INIT_FILE_PAGE_NUM + 10 + 1) * 32 > PAGE_SIZE) ∧
    ((INIT_FILE_PAGE_NUM + 10 + 1) * 32 ≤ PAGE_SIZE →
      ∃ f2, lruFillUpTo freshFile 10 = .ok f2 ∧ clockFillUpTo freshFile 10 = .ok f2 ∧
        readU32 f2 0 = INIT_FILE_PAGE_NUM + 10) :=
  c6_fill_up_to_threshold_32 freshFile 10 (by decide)

/-- The scan loop of `insert_bytes` stops at the first free-table entry
strictly greater than the record length and performs exactly the two file
writes of the source. -/
theorem insertBytesScan_first (bytes : List Nat) (f : FileData) (i : Nat)
    (hfit : bytes.length < readU32 f (32 * INIT_FILE_PAGE_NUM + i * 32))
    (hbefore : ∀ j, j < i → readU32 f (32 * INIT_FILE_PAGE_NUM + j * 32) ≤ bytes.length) :
    ∀ (m i0 : Nat), i0 ≤ i → i < i0 + m →
      insertBytesScan bytes f i0 m =
        some (writeU32 (writeBytesList f
            (INIT_FILE_PAGE_NUM * PAGE_SIZE + i * PAGE_SIZE + PAGE_SIZE -
              readU32 f (32 * INIT_FILE_PAGE_NUM + i * 32)) bytes)
          (32 * INIT_FILE_PAGE_NUM + i * 32)
          (readU32 f (32 * INIT_FILE_PAGE_NUM + i * 32) - bytes.length),
          i, PAGE_SIZE - readU32 f (32 * INIT_FILE_PAGE_NUM + i * 32)) := by
  intro m
  induction m with
  | zero => intro i0 h1 h2; omega
  | succ k ih =>
    intro i0 h1 h2
    by_cases hi0 : i0 = i
    · subst hi0
      simp only [insertBytesScan, if_pos hfit]
    · have hle : readU32 f (32 * INIT_FILE_PAGE_NUM + i0 * 32) ≤ bytes.length :=
        hbefore i0 (by omega)
      simp only [insertBytesScan, if_neg (by omega : ¬ bytes.length <
        readU32 f (32 * INIT_FILE_PAGE_NUM + i0 * 32))]
      exact ih (i0 + 1) (by omega) (by omega)

/-- **C5.** `insert_bytes` of both buffers places the record in the first
free-table entry (in scan order) whose recorded free count is *strictly*
greater than the record length — an entry exactly equal is skipped, as the
`hbefore` hypothesis admits (`≤`) — writes the record at the page's free tail
(in-page offset `PAGE_SIZE - free_count`, reported in the returned
`Position`), and decreases that entry by exactly the record length. -/
theorem c5_insert_bytes_first_fit (f : FileData) (bytes : List Nat) (i : Nat)
    (hi : i < readU32 f 0)
    (hres : readU32 f (32 * INIT_FILE_PAGE_NUM + i * 32) ≤ PAGE_SIZE)
    (hfit : bytes.length < readU32 f (32 * INIT_FILE_PAGE_NUM + i * 32))
    (hbefore : ∀ j, j < i → readU32 f (32 * INIT_FILE_PAGE_NUM + j * 32) ≤ bytes.length) :
    ∃ f2,
      lruInsertBytes bytes 1 f =
        .ok (f2, i, PAGE_SIZE - readU32 f (32 * INIT_FILE_PAGE_NUM + i * 32)) ∧
      clockInsertBytes bytes 1 f =
        .ok (f2, i, PAGE_SIZE - readU32 f (32 * INIT_FILE_PAGE_NUM + i * 32)) ∧
      readU32 f2 (32 * INIT_FILE_PAGE_NUM + i * 32)
        = readU32 f (32 * INIT_FILE_PAGE_NUM + i * 32) - bytes.length ∧
      readBytes f2 (INIT_FILE_PAGE_NUM * PAGE_SIZE + i * PAGE_SIZE + PAGE_SIZE -
        readU32 f (32 * INIT_FILE_PAGE_NUM + i * 32)) bytes.length = bytes := by
  have hscan := insertBytesScan_first bytes f i hfit hbefore (readU32 f 0) 0
    (by omega) (by omega)
  refine ⟨writeU32 (writeBytesList f
      (INIT_FILE_PAGE_NUM * PAGE_SIZE + i * PAGE_SIZE + PAGE_SIZE -
        readU32 f (32 * INIT_FILE_PAGE_NUM + i * 32)) bytes)
      (32 * INIT_FILE_PAGE_NUM + i * 32)
      (readU32 f (32 * INIT_FILE_PAGE_NUM + i * 32) - bytes.length), ?_, ?_, ?_, ?_⟩
  · simp only [lruInsertBytes, bufInsertBytes, hscan]
  · simp only [clockInsertBytes, bufInsertBytes, hscan]
  · exact readU32_writeU32 _ _ _ (by simp only [PAGE_SIZE] at hres; omega)
  · have hdisj : readBytes (writeU32 (writeBytesList f
        (INIT_FILE_PAGE_NUM * PAGE_SIZE + i * PAGE_SIZE + PAGE_SIZE -
          readU32 f (32 * INIT_FILE_PAGE_NUM + i * 32)) bytes)
        (32 * INIT_FILE_PAGE_NUM + i * 32)
        (readU32 f (32 * INIT_FILE_PAGE_NUM + i * 32) - bytes.length))
        (INIT_FILE_PAGE_NUM * PAGE_SIZE + i * PAGE_SIZE + PAGE_SIZE -
          readU32 f (32 * INIT_FILE_PAGE_NUM + i * 32)) bytes.length
      = readBytes (writeBytesList f
          (INIT_FILE_PAGE_NUM * PAGE_SIZE + i * PAGE_SIZE + PAGE_SIZE -
            readU32 f (32 * INIT_FILE_PAGE_NUM + i * 32)) bytes)
          (INIT_FILE_PAGE_NUM * PAGE_SIZE + i * PAGE_SIZE + PAGE_SIZE -
            readU32 f (32 * INIT_FILE_PAGE_NUM + i * 32)) bytes.length := by
      apply readBytes_congr
      intro j hj1 hj2
      apply writeBytesList_apply_ge
      have hb4 : (beBytes4 (readU32 f (32 * INIT_FILE_PAGE_NUM + i * 32) -
          bytes.length)).length = 4 := by simp [beBytes4]
      rw [hb4]
      simp only [PAGE_SIZE, INIT_FILE_PAGE_NUM] at hres hj1 ⊢
      omega
    rw [hdisj, readBytes_writeBytesList]

/-- Witness for **C5**: a three-byte record lands in the first data page of a
file whose entry 0 records `PAGE_SIZE` free bytes. -/
theorem c5_insert_bytes_first_fit_witness :
    ∃ f2,
      lruInsertBytes recBytes 1 fileFreeTable =
        .ok (f2, 0, PAGE_SIZE - readU32 fileFreeTable (32 * INIT_FILE_PAGE_NUM + 0 * 32)) ∧
      clockInsertBytes recBytes 1 fileFreeTable =
        .ok (f2, 0, PAGE_SIZE - readU32 fileFreeTable (32 * INIT_FILE_PAGE_NUM + 0 * 32)) ∧
      readU32 f2 (32 * INIT_FILE_PAGE_NUM + 0 * 32)
        = readU32 fileFreeTable (32 * INIT_FILE_PAGE_NUM + 0 * 32) - recBytes.length ∧
      readBytes f2 (INIT_FILE_PAGE_NUM * PAGE_SIZE + 0 * PAGE_SIZE + PAGE_SIZE -
        readU32 fileFreeTable (32 * INIT_FILE_PAGE_NUM + 0 * 32)) recBytes.length = recBytes :=
  c5_insert_bytes_first_fit fileFreeTable recBytes 0 (by decide) (by decide) (by decide)
    (fun j hj => absurd hj (Nat.not_lt_zero j))

/-- The flush loop of `LRUBuffer::flush_internal` succeeds (when every cached
page's file is open) and preserves every entry's identity and byte content;
only timestamps and the disk change. -/
theorem lruFlushLoop_preserves (files : List String) (fname : Option String)
    (pnum : Option Nat) (updated : Bool) :
    ∀ (l : List (PageRec × Nat)) (disk : String → FileData) (clock : Nat),
      (∀ e ∈ l, e.1.fileName ∈ files) →
      ∃ l2 disk2 clock2,
        lruFlushLoop files fname pnum updated l disk clock = .ok (l2, disk2, clock2) ∧
        l2.map pageObs = l.map pageObs := by
  intro l
  induction l with
  | nil => intro disk clock h; exact ⟨[], disk, clock, rfl, rfl⟩
  | cons e rest ih =>
    intro disk clock h
    obtain ⟨pg, t⟩ := e
    have hf : pg.fileName ∈ files := h (pg, t) (List.mem_cons_self _ _)
    by_cases hm : lruMatches fname pnum pg
    · obtain ⟨l2, d2, c2, hrec, hobs⟩ := ih (diskWritePage disk pg)
        (if updated then clock + 1 else clock)
        (fun e he => h e (List.mem_cons_of_mem _ he))
      refine ⟨(pg, if updated then clock else t) :: l2, d2, c2, ?_, ?_⟩
      · simp only [lruFlushLoop, hm, if_true, hf, if_pos, hrec, Except.map]
      · simp [pageObs, hobs]
    · obtain ⟨l2, d2, c2, hrec, hobs⟩ := ih disk clock
        (fun e he => h e (List.mem_cons_of_mem _ he))
      refine ⟨(pg, t) :: l2, d2, c2, ?_, ?_⟩
      · simp only [lruFlushLoop, hm, Bool.false_eq_true, if_false, hrec, Except.map]
      · simp [pageObs, hobs]

/-- The loop of `ClockBuffer::flush_file` succeeds when every cached page's
file is open. -/
theorem clockFlushFileAux_ok (files : List String) (fn : String) :
    ∀ (l : List (PageRec × Nat)) (disk : String → FileData),
      (∀ e ∈ l, e.1.fileName ∈ files) →
      ∃ d2, clockFlushFileAux files fn l disk = .ok d2 := by
  intro l
  induction l with
  | nil => intro disk _; exact ⟨disk, rfl⟩
  | cons e rest ih =>
    intro disk h
    obtain ⟨pg, t⟩ := e
    by_cases hm : pg.fileName == fn
    · have hf : fn ∈ files := by
        have hmem := h (pg, t) (List.mem_cons_self _ _)
        have heq : pg.fileName = fn := by simpa using hm
        rwa [heq] at hmem
      obtain ⟨d2, hd⟩ := ih (diskWritePage disk pg)
        (fun e he => h e (List.mem_cons_of_mem _ he))
      refine ⟨d2, ?_⟩
      simp only [clockFlushFileAux, hm, if_true, hf, if_pos]
      exact hd
    · obtain ⟨d2, hd⟩ := ih disk (fun e he => h e (List.mem_cons_of_mem _ he))
      refine ⟨d2, ?_⟩
      simp only [clockFlushFileAux, hm, Bool.false_eq_true, if_false]
      exact hd

/-- The loop of `ClockBuffer::flush_all` succeeds when every cached page's
file is open. -/
theorem clockFlushAllAux_ok (files : List String) :
    ∀ (l : List (PageRec × Nat)) (disk : String → FileData),
      (∀ e ∈ l, e.1.fileName ∈ files) →
      ∃ d2, clockFlushAllAux files l disk = .ok d2 := by
  intro l
  induction l with
  | nil => intro disk _; exact ⟨disk, rfl⟩
  | cons e rest ih =>
    intro disk h
    obtain ⟨pg, t⟩ := e
    have hf : pg.fileName ∈ files := h (pg, t) (List.mem_cons_self _ _)
    obtain ⟨d2, hd⟩ := ih (diskWritePage disk pg)
      (fun e he => h e (List.mem_cons_of_mem _ he))
    refine ⟨d2, ?_⟩
    simp only [clockFlushAllAux, hf, if_pos]
    exact hd

/-- **C10.** `flush_file` and `flush_all` of both buffers succeed (given every
cached page's file is open) and only write cached pages back to disk: the
sequence of `(file_name, page_num, content)` triples held in the cache — and
hence its multiset — is exactly the same after the call, and no cached page's
bytes change.  (The LRU variant refreshes timestamps, which `pageObs` rightly
ignores; the CLOCK variant does not touch the entry list at all.) -/
theorem c10_flush_file_flush_all_frame (st : LRUState) (cst : ClockState) (fn : String)
    (hl : ∀ e ∈ st.list, e.1.fileName ∈ st.files)
    (hc : ∀ e ∈ cst.list, e.1.fileName ∈ cst.files) :
    (∃ st2, lruFlushFile st fn = .ok st2 ∧ st2.list.map pageObs = st.list.map pageObs) ∧
    (∃ st2, lruFlushAll st = .ok st2 ∧ st2.list.map pageObs = st.list.map pageObs) ∧
    (∃ st2, clockFlushFile cst fn = .ok st2 ∧ st2.list = cst.list) ∧
    (∃ st2, clockFlushAll cst = .ok st2 ∧ st2.list = cst.list) := by
  refine ⟨?_, ?_, ?_, ?_⟩
  · obtain ⟨l2, d2, c2, hloop, hobs⟩ :=
      lruFlushLoop_preserves st.files (some fn) none true st.list st.disk st.clock hl
    exact ⟨{ st with list := l2, disk := d2, clock := c2 },
      by simp only [lruFlushFile, lruFlushInternal, hloop, Except.map], hobs⟩
  · obtain ⟨l2, d2, c2, hloop, hobs⟩ :=
      lruFlushLoop_preserves st.files none none true st.list st.disk st.clock hl
    exact ⟨{ st with list := l2, disk := d2, clock := c2 },
      by simp only [lruFlushAll, lruFlushInternal, hloop, Except.map], hobs⟩
  · obtain ⟨d2, hd⟩ := clockFlushFileAux_ok cst.files fn cst.list cst.disk hc
    exact ⟨{ cst with disk := d2 },
      by simp only [clockFlushFile, hd, Except.map], rfl⟩
  · obtain ⟨d2, hd⟩ := clockFlushAllAux_ok cst.files cst.list cst.disk hc
    exact ⟨{ cst with disk := d2 },
      by simp only [clockFlushAll, hd, Except.map], rfl⟩

/-- Witness for **C10**: flushing the single-entry caches. -/
theorem c10_flush_file_flush_all_frame_witness :
    (∃ st2, lruFlushFile lruOnlyPage2 "test.db" = .ok st2 ∧
      st2.list.map pageObs = lruOnlyPage2.list.map pageObs) ∧
    (∃ st2, lruFlushAll lruOnlyPage2 = .ok st2 ∧
      st2.list.map pageObs = lruOnlyPage2.list.map pageObs) ∧
    (∃ st2, clockFlushFile clockOnlyPage2 "test.db" = .ok st2 ∧
      st2.list = clockOnlyPage2.list) ∧
    (∃ st2, clockFlushAll clockOnlyPage2 = .ok st2 ∧ st2.list = clockOnlyPage2.list) :=
  c10_flush_file_flush_all_frame lruOnlyPage2 clockOnlyPage2 "test.db"
    (by decide) (by decide)
